import Mathlib

/-!
Shallow embedding of `src/utils/rate_limiter.py` (class `RateLimiter`) of the
WebAgents repository, and proofs about the properties its specification
states.

Modelling conventions:
* Python `time.time()` readings and float token counts are rationals (`ℚ`);
  Python integers are `ℤ`.
* Python dicts keyed by source strings are association lists preserving
  insertion order; `defaultdict(deque)` reads are modelled by
  `getWindowDefault`, which inserts an empty entry when the key is absent,
  exactly as Python's `__getitem__` does.
* Methods that read the wall clock take the current time as an explicit
  argument; methods that can raise an uncaught `KeyError` return `Option`
  (with `none` for the exception).
-/

namespace WebAgents

/-- Python `int()` applied to a float/rational: truncation toward zero. -/
def pyInt (q : ℚ) : ℤ := if q < 0 then ⌈q⌉ else ⌊q⌋

/-- Python `burst or limit` for an optional integer `burst`: `None` and `0`
are falsy, anything else yields `burst` itself. -/
def pyOrInt (burst : Option ℤ) (limit : ℤ) : ℤ :=
  match burst with
  | none => limit
  | some b => if b = 0 then limit else b

/-- Python truthiness of an optional float (`max_wait`): `None` and `0.0`
are falsy. -/
def pyTruthy : Option ℚ → Bool
  | none => false
  | some q => decide (q ≠ 0)

/-- Dict read `d[k]` that may fail (`KeyError` is `none`). -/
def lookupKey {α : Type} (k : String) : List (String × α) → Option α
  | [] => none
  | (k', v) :: rest => if k = k' then some v else lookupKey k rest

/-- Dict write `d[k] = v`: replaces in place, or appends a new entry. -/
def setKey {α : Type} (k : String) (v : α) : List (String × α) → List (String × α)
  | [] => [(k, v)]
  | (k', v') :: rest => if k = k' then (k, v) :: rest else (k', v') :: setKey k v rest

/-- One entry of `self.limits`: `{'limit': .., 'window': .., 'burst': ..}`
(the stored `burst` is already `burst or limit`). -/
structure LimitConfig where
  limit : ℤ
  window : ℤ
  burst : ℤ
deriving DecidableEq

/-- One entry of `self.buckets`: `{'tokens': .., 'last_refill': .., 'capacity': ..}`. -/
structure Bucket where
  tokens : ℚ
  lastRefill : ℚ
  capacity : ℤ
deriving DecidableEq

/-- One entry of `self.fixed_windows`: `{'count': .., 'window_start': ..}`. -/
structure FixedWindowState where
  count : ℤ
  windowStart : ℚ
deriving DecidableEq

/-- The state of a `RateLimiter` instance. `windows` is the
`defaultdict(deque)` of sliding-window timestamp records. -/
structure RateLimiter where
  strategy : String
  limits : List (String × LimitConfig)
  buckets : List (String × Bucket)
  windows : List (String × List ℚ)
  fixedWindows : List (String × FixedWindowState)
deriving DecidableEq

/-- `RateLimiter.__init__(strategy)`. -/
def RateLimiter.init (strategy : String) : RateLimiter :=
  ⟨strategy, [], [], [], []⟩

/-- `self.windows[source]` on the `defaultdict(deque)`: returns the stored
deque, inserting a fresh empty one when the key is absent. -/
def getWindowDefault (rl : RateLimiter) (source : String) : List ℚ × RateLimiter :=
  match lookupKey source rl.windows with
  | some w => (w, rl)
  | none => ([], { rl with windows := setKey source [] rl.windows })

/-- `RateLimiter.set_limit(source, limit, window, burst=None)` at wall-clock
time `now`. -/
def setLimit (rl : RateLimiter) (source : String) (limit window : ℤ)
    (burst : Option ℤ) (now : ℚ) : RateLimiter :=
  let cfg : LimitConfig := ⟨limit, window, pyOrInt burst limit⟩
  let rl1 := { rl with limits := setKey source cfg rl.limits }
  if rl.strategy = "token_bucket" then
    { rl1 with buckets := setKey source ⟨(limit : ℚ), now, pyOrInt burst limit⟩ rl1.buckets }
  else if rl.strategy = "fixed_window" then
    { rl1 with fixedWindows := setKey source ⟨0, now⟩ rl1.fixedWindows }
  else rl1

/-- `RateLimiter._check_token_bucket` acting on the looked-up config and
bucket: refill for the elapsed time at rate `limit / window`, cap at
`capacity`, update `last_refill`, then admit (subtracting `cost`) exactly
when the refilled level is at least `cost`. -/
def checkTokenBucket (cfg : LimitConfig) (b : Bucket) (cost : ℤ) (now : ℚ) :
    Bool × Bucket :=
  let timePassed := now - b.lastRefill
  let tokensToAdd := timePassed * ((cfg.limit : ℚ) / (cfg.window : ℚ))
  let tokens := min (b.capacity : ℚ) (b.tokens + tokensToAdd)
  if (cost : ℚ) ≤ tokens then
    (true, ⟨tokens - (cost : ℚ), now, b.capacity⟩)
  else
    (false, ⟨tokens, now, b.capacity⟩)

/-- `RateLimiter._check_sliding_window` acting on the looked-up config and
deque: pop expired timestamps from the front, then admit (appending `cost`
copies of `now`) exactly when the retained count plus `cost` fits in
`limit`. -/
def checkSlidingWindow (cfg : LimitConfig) (w : List ℚ) (cost : ℤ) (now : ℚ) :
    Bool × List ℚ :=
  let windowStart := now - (cfg.window : ℚ)
  let w1 := w.dropWhile fun x => decide (x < windowStart)
  if (w1.length : ℤ) + cost ≤ cfg.limit then
    (true, w1 ++ List.replicate cost.toNat now)
  else
    (false, w1)

/-- `RateLimiter._check_fixed_window` acting on the looked-up config and
window state: reset the window when it has elapsed, then admit (adding
`cost` to `count`) exactly when `count + cost` fits in `limit`. -/
def checkFixedWindow (cfg : LimitConfig) (st : FixedWindowState) (cost : ℤ) (now : ℚ) :
    Bool × FixedWindowState :=
  let st1 := if (cfg.window : ℚ) ≤ now - st.windowStart then ⟨0, now⟩ else st
  if st1.count + cost ≤ cfg.limit then
    (true, ⟨st1.count + cost, st1.windowStart⟩)
  else
    (false, st1)

/-- `RateLimiter.check_limit(source, tokens)` at wall-clock time `now`.
`none` models an uncaught `KeyError` (a per-strategy state dict missing the
configured source, impossible for states the public API builds). -/
def checkLimit (rl : RateLimiter) (source : String) (cost : ℤ) (now : ℚ) :
    Option (Bool × RateLimiter) :=
  match lookupKey source rl.limits with
  | none => some (true, rl)
  | some cfg =>
    if rl.strategy = "token_bucket" then
      match lookupKey source rl.buckets with
      | none => none
      | some b =>
        let r := checkTokenBucket cfg b cost now
        some (r.1, { rl with buckets := setKey source r.2 rl.buckets })
    else if rl.strategy = "sliding_window" then
      let wr := getWindowDefault rl source
      let r := checkSlidingWindow cfg wr.1 cost now
      some (r.1, { wr.2 with windows := setKey source r.2 wr.2.windows })
    else if rl.strategy = "fixed_window" then
      match lookupKey source rl.fixedWindows with
      | none => none
      | some st =>
        let r := checkFixedWindow cfg st cost now
        some (r.1, { rl with fixedWindows := setKey source r.2 rl.fixedWindows })
    else some (true, rl)

/-- `RateLimiter.get_remaining_quota(source)` at wall-clock time `now`.
Returns the quota value (`none` = unlimited) together with the instance
state after the call; the sliding-window branch reads the `defaultdict`. -/
def getRemainingQuota (rl : RateLimiter) (source : String) (now : ℚ) :
    Option (Option ℤ × RateLimiter) :=
  match lookupKey source rl.limits with
  | none => some (none, rl)
  | some cfg =>
    if rl.strategy = "token_bucket" then
      match lookupKey source rl.buckets with
      | none => none
      | some b =>
        let timePassed := now - b.lastRefill
        let tokensToAdd := timePassed * ((cfg.limit : ℚ) / (cfg.window : ℚ))
        let currentTokens := min (b.capacity : ℚ) (b.tokens + tokensToAdd)
        some (some (pyInt currentTokens), rl)
    else if rl.strategy = "sliding_window" then
      let wr := getWindowDefault rl source
      let windowStart := now - (cfg.window : ℚ)
      let validRequests := (wr.1.filter fun x => decide (windowStart ≤ x)).length
      some (some (max 0 (cfg.limit - (validRequests : ℤ))), wr.2)
    else if rl.strategy = "fixed_window" then
      match lookupKey source rl.fixedWindows with
      | none => none
      | some st =>
        if (cfg.window : ℚ) ≤ now - st.windowStart then
          some (some cfg.limit, rl)
        else
          some (some (max 0 (cfg.limit - st.count)), rl)
    else some (none, rl)

/-- The value `get_remaining_quota` returns, discarding the state. -/
def quotaValue (rl : RateLimiter) (source : String) (now : ℚ) : Option (Option ℤ) :=
  (getRemainingQuota rl source now).map Prod.fst

/-- `RateLimiter.get_reset_time(source)` at wall-clock time `now`
(`datetime.now()` readings are `now` itself; a returned `datetime` is an
absolute time in `ℚ`). -/
def getResetTime (rl : RateLimiter) (source : String) (now : ℚ) :
    Option (Option ℚ × RateLimiter) :=
  match lookupKey source rl.limits with
  | none => some (none, rl)
  | some cfg =>
    if rl.strategy = "token_bucket" then
      match lookupKey source rl.buckets with
      | none => none
      | some b =>
        if (cfg.limit : ℚ) ≤ b.tokens then some (some now, rl)
        else
          let tokensNeeded := (cfg.limit : ℚ) - b.tokens
          let timeNeeded := tokensNeeded / ((cfg.limit : ℚ) / (cfg.window : ℚ))
          some (some (now + timeNeeded), rl)
    else if rl.strategy = "sliding_window" then
      let wr := getWindowDefault rl source
      match wr.1 with
      | [] => some (some now, wr.2)
      | x :: rest => some (some (rest.foldl min x + (cfg.window : ℚ)), wr.2)
    else if rl.strategy = "fixed_window" then
      match lookupKey source rl.fixedWindows with
      | none => none
      | some st => some (some (st.windowStart + (cfg.window : ℚ)), rl)
    else some (none, rl)

/-- What `RateLimiter.get_status(source)` returns: the explicit
`{'error': 'No limit configured for this source'}` marker, or the status
dict's fields. -/
inductive StatusInfo where
  | noLimitError
  | info (source strategy : String) (limit window : ℤ) (remaining : Option ℤ)
      (resetTime : Option ℚ) (burst : ℤ)
deriving DecidableEq

/-- `RateLimiter.get_status(source)` at wall-clock time `now`. -/
def getStatus (rl : RateLimiter) (source : String) (now : ℚ) :
    Option (StatusInfo × RateLimiter) :=
  match lookupKey source rl.limits with
  | none => some (.noLimitError, rl)
  | some cfg =>
    match getRemainingQuota rl source now with
    | none => none
    | some (remaining, rl1) =>
      match getResetTime rl1 source now with
      | none => none
      | some (resetTime, rl2) =>
        some (.info source rl.strategy cfg.limit cfg.window remaining resetTime cfg.burst, rl2)

/-- Outcome of running `RateLimiter.wait_if_needed` against a finite trace
of clock readings: it returned a boolean, it raised `KeyError`, or the
supplied trace ended with the loop still spinning. -/
inductive WaitOutcome where
  | returned (ok : Bool) (rl : RateLimiter)
  | keyError
  | running (rl : RateLimiter)
deriving DecidableEq

/-- Whether the wait returned at all within the observed trace. -/
def WaitOutcome.isReturned : WaitOutcome → Bool
  | .returned _ _ => true
  | _ => false

/-- `RateLimiter.wait_if_needed(source, tokens, max_wait)` driven by a trace
of clock readings: iteration `k` calls `check_limit` at time `tCheck` and
samples `time.time()` at `tAfter` for the deadline test (`tAfter` is the
later reading of the same iteration). The sleeping between iterations is
reflected by the gaps between successive readings; a trace that runs out
leaves the loop `running`. `startTime` is the `time.time()` reading taken
on entry. -/
def waitIfNeeded (source : String) (cost : ℤ) (maxWait : Option ℚ)
    (startTime : ℚ) : RateLimiter → List (ℚ × ℚ) → WaitOutcome
  | rl, [] => .running rl
  | rl, (tCheck, tAfter) :: rest =>
    match checkLimit rl source cost tCheck with
    | none => .keyError
    | some (true, rl') => .returned true rl'
    | some (false, rl') =>
      if pyTruthy maxWait = true ∧ maxWait.getD 0 ≤ tAfter - startTime then
        .returned false rl'
      else
        waitIfNeeded source cost maxWait startTime rl' rest

/-- Run a sequence of `_check_token_bucket` calls `(cost, time)`, returning
the total admitted cost and the final bucket. -/
def runTokenBucket (cfg : LimitConfig) : Bucket → List (ℤ × ℚ) → ℤ × Bucket
  | b, [] => (0, b)
  | b, (cost, t) :: rest =>
    let r := checkTokenBucket cfg b cost t
    let s := runTokenBucket cfg r.2 rest
    ((if r.1 then cost else 0) + s.1, s.2)

/-- Run a sequence of `_check_sliding_window` calls `(cost, time)`,
returning the total admitted cost and the final deque. -/
def runSlidingWindow (cfg : LimitConfig) : List ℚ → List (ℤ × ℚ) → ℤ × List ℚ
  | w, [] => (0, w)
  | w, (cost, t) :: rest =>
    let r := checkSlidingWindow cfg w cost t
    let s := runSlidingWindow cfg r.2 rest
    ((if r.1 then cost else 0) + s.1, s.2)

/-- Run a sequence of `_check_fixed_window` calls `(cost, time)`, returning
the total admitted cost and the final window state. -/
def runFixedWindow (cfg : LimitConfig) : FixedWindowState → List (ℤ × ℚ) → ℤ × FixedWindowState
  | st, [] => (0, st)
  | st, (cost, t) :: rest =>
    let r := checkFixedWindow cfg st cost t
    let s := runFixedWindow cfg r.2 rest
    ((if r.1 then cost else 0) + s.1, s.2)

/-- The call times of a `(cost, time)` sequence are nondecreasing, starting
at or after `t0`. -/
def timesMono (t0 : ℚ) : List (ℤ × ℚ) → Bool
  | [] => true
  | (_, t) :: rest => decide (t0 ≤ t) && timesMono t rest

/-- All costs of a `(cost, time)` sequence are nonnegative. -/
def costsNonneg : List (ℤ × ℚ) → Bool
  | [] => true
  | (c, _) :: rest => decide (0 ≤ c) && costsNonneg rest

/-- The time of the last call of a `(cost, time)` sequence (`t0` when there
is none). -/
def lastTime (t0 : ℚ) : List (ℤ × ℚ) → ℚ
  | [] => t0
  | (_, t) :: rest => lastTime t rest

/-- The token-bucket admission rule in the specification's words: the refill
`elapsed * (limit / window)` is added to `tokens` and capped at `burst`; the
call admits, subtracting `cost`, exactly when the refilled level reaches
`cost`, and otherwise rejects without subtracting. Used to compare
`checkTokenBucket` against the specification. -/
def specTokenBucketAdmit (limit window burst tokens lastRefill cost now : ℚ) :
    Bool × ℚ :=
  let refill := (now - lastRefill) * (limit / window)
  let filled := min burst (tokens + refill)
  if cost ≤ filled then (true, filled - cost) else (false, filled)

/-- The reset time the claim describes for the token bucket: the moment at
which a bucket refilling linearly at rate `limit / window` from its current
level `tokens` reaches full `capacity` (the current time when already
full). Used to compare `getResetTime` against the claim. -/
def specFullCapacityResetTime (limit window capacity tokens now : ℚ) : ℚ :=
  if capacity ≤ tokens then now else now + (capacity - tokens) / (limit / window)

theorem lookupKey_setKey_self {α : Type} (k : String) (v : α) :
    ∀ l : List (String × α), lookupKey k (setKey k v l) = some v := by
  intro l
  induction l with
  | nil => simp [setKey, lookupKey]
  | cons hd tl ih =>
    obtain ⟨k', v'⟩ := hd
    by_cases h : k = k' <;> simp [setKey, lookupKey, h, ih]

theorem getWindowDefault_strategy (rl : RateLimiter) (s : String) :
    (getWindowDefault rl s).2.strategy = rl.strategy := by
  unfold getWindowDefault
  cases lookupKey s rl.windows <;> rfl

theorem getWindowDefault_limits (rl : RateLimiter) (s : String) :
    (getWindowDefault rl s).2.limits = rl.limits := by
  unfold getWindowDefault
  cases lookupKey s rl.windows <;> rfl

theorem getWindowDefault_buckets (rl : RateLimiter) (s : String) :
    (getWindowDefault rl s).2.buckets = rl.buckets := by
  unfold getWindowDefault
  cases lookupKey s rl.windows <;> rfl

theorem getWindowDefault_fixedWindows (rl : RateLimiter) (s : String) :
    (getWindowDefault rl s).2.fixedWindows = rl.fixedWindows := by
  unfold getWindowDefault
  cases lookupKey s rl.windows <;> rfl

theorem pyInt_mono {x y : ℚ} (h : x ≤ y) : pyInt x ≤ pyInt y := by
  unfold pyInt
  split_ifs with hx hy hy
  · exact Int.ceil_le_ceil h
  · exact le_trans (Int.ceil_le.2 (by simpa using hx.le)) (Int.floor_nonneg.2 (not_lt.1 hy))
  · exact absurd (lt_of_le_of_lt h hy) hx
  · exact Int.floor_le_floor h

theorem pyInt_le_intCast {x : ℚ} {n : ℤ} (h : x ≤ (n : ℚ)) : pyInt x ≤ n := by
  unfold pyInt
  split_ifs with hx
  · exact Int.ceil_le.2 h
  · exact le_trans (Int.floor_le_floor h) (le_of_eq (Int.floor_intCast n))

theorem filter_dropWhile_ge (ws : ℚ) :
    ∀ w : List ℚ,
      ((w.dropWhile fun x => decide (x < ws)).filter fun x => decide (ws ≤ x)) =
        w.filter fun x => decide (ws ≤ x) := by
  intro w
  induction w with
  | nil => rfl
  | cons x rest ih =>
    by_cases h : x < ws
    · simpa [List.dropWhile_cons, List.filter_cons, h, not_le.2 h] using ih
    · simp [List.dropWhile_cons, h]

theorem dropWhile_lt_eq_self (ws : ℚ) (w : List ℚ) (h : ∀ x ∈ w, ¬x < ws) :
    (w.dropWhile fun x => decide (x < ws)) = w := by
  cases w with
  | nil => rfl
  | cons x rest => simp [List.dropWhile_cons, h x (by simp)]

theorem runTokenBucket_le (cfg : LimitConfig) :
    ∀ (calls : List (ℤ × ℚ)) (b : Bucket),
      0 ≤ b.tokens → 0 ≤ b.capacity →
      0 ≤ (cfg.limit : ℚ) / (cfg.window : ℚ) →
      timesMono b.lastRefill calls = true → costsNonneg calls = true →
      ((runTokenBucket cfg b calls).1 : ℚ) ≤
        b.tokens + (lastTime b.lastRefill calls - b.lastRefill) *
          ((cfg.limit : ℚ) / (cfg.window : ℚ)) := by
  intro calls
  induction calls with
  | nil =>
    intro b h0 _ _ _ _
    simpa [runTokenBucket, lastTime] using h0
  | cons p rest ih =>
    intro b h0 hcap hr hm hc
    obtain ⟨cost, t⟩ := p
    simp only [timesMono, Bool.and_eq_true, decide_eq_true_eq] at hm
    simp only [costsNonneg, Bool.and_eq_true, decide_eq_true_eq] at hc
    have hadd : 0 ≤ (t - b.lastRefill) * ((cfg.limit : ℚ) / (cfg.window : ℚ)) :=
      mul_nonneg (sub_nonneg.2 hm.1) hr
    have hring :
        (t - b.lastRefill) * ((cfg.limit : ℚ) / (cfg.window : ℚ)) +
            (lastTime t rest - t) * ((cfg.limit : ℚ) / (cfg.window : ℚ)) =
          (lastTime t rest - b.lastRefill) * ((cfg.limit : ℚ) / (cfg.window : ℚ)) := by
      ring
    have hmin :
        min (b.capacity : ℚ)
            (b.tokens + (t - b.lastRefill) * ((cfg.limit : ℚ) / (cfg.window : ℚ))) ≤
          b.tokens + (t - b.lastRefill) * ((cfg.limit : ℚ) / (cfg.window : ℚ)) :=
      min_le_right _ _
    have hmin0 :
        0 ≤ min (b.capacity : ℚ)
            (b.tokens + (t - b.lastRefill) * ((cfg.limit : ℚ) / (cfg.window : ℚ))) :=
      le_min (by exact_mod_cast hcap) (by linarith)
    by_cases hadm :
        (cost : ℚ) ≤ min (b.capacity : ℚ)
          (b.tokens + (t - b.lastRefill) * ((cfg.limit : ℚ) / (cfg.window : ℚ)))
    · have ihap := ih ⟨min (b.capacity : ℚ)
          (b.tokens + (t - b.lastRefill) * ((cfg.limit : ℚ) / (cfg.window : ℚ))) - (cost : ℚ),
          t, b.capacity⟩ (by simpa using sub_nonneg.2 hadm) hcap hr hm.2 hc.2
      simp only [runTokenBucket, checkTokenBucket, lastTime, if_pos hadm] at ihap ⊢
      push_cast
      linarith
    · have ihap := ih ⟨min (b.capacity : ℚ)
          (b.tokens + (t - b.lastRefill) * ((cfg.limit : ℚ) / (cfg.window : ℚ))),
          t, b.capacity⟩ (by simpa using hmin0) hcap hr hm.2 hc.2
      simp only [runTokenBucket, checkTokenBucket, lastTime, if_neg hadm] at ihap ⊢
      push_cast
      linarith

theorem le_lastTime :
    ∀ (calls : List (ℤ × ℚ)) (t0 : ℚ), timesMono t0 calls = true →
      t0 ≤ lastTime t0 calls := by
  intro calls
  induction calls with
  | nil => intro t0 _; simp [lastTime]
  | cons p rest ih =>
    intro t0 h
    obtain ⟨c, t⟩ := p
    simp only [timesMono, Bool.and_eq_true, decide_eq_true_eq] at h
    exact le_trans h.1 (ih t h.2)

theorem runSlidingWindow_le (cfg : LimitConfig) :
    ∀ (calls : List (ℤ × ℚ)) (w : List ℚ) (t0 tc : ℚ),
      t0 ≤ tc → timesMono tc calls = true → costsNonneg calls = true →
      lastTime tc calls ≤ t0 + (cfg.window : ℚ) →
      (∀ x ∈ w, t0 ≤ x) →
      (runSlidingWindow cfg w calls).1 ≤ max 0 (cfg.limit - (w.length : ℤ)) := by
  intro calls
  induction calls with
  | nil =>
    intro w t0 tc _ _ _ _ _
    simp only [runSlidingWindow]
    exact le_max_left _ _
  | cons p rest ih =>
    intro w t0 tc ht0 hm hc hlast hw
    obtain ⟨cost, t⟩ := p
    simp only [timesMono, Bool.and_eq_true, decide_eq_true_eq] at hm
    simp only [costsNonneg, Bool.and_eq_true, decide_eq_true_eq] at hc
    simp only [lastTime] at hlast
    have ht : t ≤ t0 + (cfg.window : ℚ) := le_trans (le_lastTime rest t hm.2) hlast
    have hnoevict : (w.dropWhile fun x => decide (x < t - (cfg.window : ℚ))) = w := by
      refine dropWhile_lt_eq_self _ _ fun x hx => not_lt.2 ?_
      have := hw x hx
      linarith
    by_cases hadm : (w.length : ℤ) + cost ≤ cfg.limit
    · have ihap := ih (w ++ List.replicate cost.toNat t) t0 t (le_trans ht0 hm.1)
        hm.2 hc.2 hlast (by
          intro x hx
          rcases List.mem_append.1 hx with hx | hx
          · exact hw x hx
          · rw [List.eq_of_mem_replicate hx]
            exact le_trans ht0 hm.1)
      have hcast : ((cost.toNat : ℤ)) = cost := Int.toNat_of_nonneg hc.1
      simp only [List.length_append, List.length_replicate, Nat.cast_add, hcast] at ihap
      simp [runSlidingWindow, checkSlidingWindow, hnoevict, hadm]
      omega
    · have ihap := ih w t0 t (le_trans ht0 hm.1) hm.2 hc.2 hlast hw
      simp [runSlidingWindow, checkSlidingWindow, hnoevict, hadm]
      omega

theorem runFixedWindow_le (cfg : LimitConfig) :
    ∀ (calls : List (ℤ × ℚ)) (st : FixedWindowState) (tc : ℚ),
      timesMono tc calls = true → costsNonneg calls = true →
      lastTime tc calls < st.windowStart + (cfg.window : ℚ) →
      (runFixedWindow cfg st calls).1 ≤ max 0 (cfg.limit - st.count) := by
  intro calls
  induction calls with
  | nil =>
    intro st tc _ _ _
    simp only [runFixedWindow]
    exact le_max_left _ _
  | cons p rest ih =>
    intro st tc hm hc hlast
    obtain ⟨cost, t⟩ := p
    simp only [timesMono, Bool.and_eq_true, decide_eq_true_eq] at hm
    simp only [costsNonneg, Bool.and_eq_true, decide_eq_true_eq] at hc
    simp only [lastTime] at hlast
    have ht : t < st.windowStart + (cfg.window : ℚ) :=
      lt_of_le_of_lt (le_lastTime rest t hm.2) hlast
    have hnoreset : ¬(cfg.window : ℚ) ≤ t - st.windowStart := by
      intro hcontra
      linarith
    by_cases hadm : st.count + cost ≤ cfg.limit
    · have ihap := ih ⟨st.count + cost, st.windowStart⟩ t hm.2 hc.2 (by
        simpa using hlast)
      simp only at ihap
      simp [runFixedWindow, checkFixedWindow, hnoreset, hadm]
      omega
    · have ihap := ih st t hm.2 hc.2 hlast
      simp [runFixedWindow, checkFixedWindow, hnoreset, hadm]
      omega

/-- C1: Quota conservation. For a source configured once by `set_limit`
(token bucket starts at `tokens = limit` with capacity `burst or limit`;
sliding window starts empty; fixed window starts at count `0`), any
sequence of `check_limit` calls whose admitted calls fall within one window
admits a total cost of at most `limit` under the sliding-window and
fixed-window strategies, and at most the effective `burst` plus the tokens
refilled over the interval (`elapsed * limit / window`) under the
token-bucket strategy. -/
theorem c1_quota_conservation :
    (∀ (limit window : ℤ) (burst : Option ℤ) (t0 : ℚ) (calls : List (ℤ × ℚ)),
        0 < limit → 0 < window → limit ≤ pyOrInt burst limit →
        timesMono t0 calls = true → costsNonneg calls = true →
        ((runTokenBucket ⟨limit, window, pyOrInt burst limit⟩
              ⟨(limit : ℚ), t0, pyOrInt burst limit⟩ calls).1 : ℚ) ≤
          ((pyOrInt burst limit : ℤ) : ℚ) +
            (lastTime t0 calls - t0) * ((limit : ℚ) / (window : ℚ))) ∧
    (∀ (cfg : LimitConfig) (t0 : ℚ) (calls : List (ℤ × ℚ)),
        0 ≤ cfg.limit → timesMono t0 calls = true → costsNonneg calls = true →
        lastTime t0 calls ≤ t0 + (cfg.window : ℚ) →
        (runSlidingWindow cfg [] calls).1 ≤ cfg.limit) ∧
    (∀ (cfg : LimitConfig) (t0 : ℚ) (calls : List (ℤ × ℚ)),
        0 ≤ cfg.limit → timesMono t0 calls = true → costsNonneg calls = true →
        lastTime t0 calls < t0 + (cfg.window : ℚ) →
        (runFixedWindow cfg ⟨0, t0⟩ calls).1 ≤ cfg.limit) := by
  refine ⟨?_, ?_, ?_⟩
  · intro limit window burst t0 calls hlim hwin hburst hm hc
    have hr : 0 ≤ (limit : ℚ) / (window : ℚ) :=
      div_nonneg (by exact_mod_cast hlim.le) (by exact_mod_cast hwin.le)
    have h := runTokenBucket_le ⟨limit, window, pyOrInt burst limit⟩ calls
      ⟨(limit : ℚ), t0, pyOrInt burst limit⟩
      (show (0 : ℚ) ≤ ((limit : ℤ) : ℚ) by exact_mod_cast hlim.le)
      (le_trans hlim.le hburst) hr hm hc
    refine le_trans h ?_
    have hb : (limit : ℚ) ≤ ((pyOrInt burst limit : ℤ) : ℚ) := by exact_mod_cast hburst
    dsimp only
    linarith
  · intro cfg t0 calls hlim hm hc hlast
    have h := runSlidingWindow_le cfg calls [] t0 t0 le_rfl hm hc hlast (by simp)
    simpa [max_eq_right hlim] using h
  · intro cfg t0 calls hlim hm hc hlast
    have h := runFixedWindow_le cfg calls ⟨0, t0⟩ t0 hm hc (by simpa using hlast)
    simpa [max_eq_right hlim] using h

/-- C3: Unconfigured openness. For a source never registered with
`set_limit`, `check_limit` returns `true` with the state unchanged, and
`get_status` still returns the explicit no-limit error marker. -/
theorem c3_unconfigured_open (rl : RateLimiter) (s : String) (cost : ℤ) (now : ℚ)
    (h : lookupKey s rl.limits = none) :
    checkLimit rl s cost now = some (true, rl) ∧
      getStatus rl s now = some (.noLimitError, rl) := by
  constructor
  · unfold checkLimit
    rw [h]
  · unfold getStatus
    rw [h]

/-- Witness for C3 at a fresh governor and an unregistered source. -/
theorem c3_witness :
    checkLimit (RateLimiter.init "token_bucket") "zzz" 3 5 =
        some (true, RateLimiter.init "token_bucket") ∧
      getStatus (RateLimiter.init "token_bucket") "zzz" 5 =
        some (.noLimitError, RateLimiter.init "token_bucket") :=
  c3_unconfigured_open (RateLimiter.init "token_bucket") "zzz" 3 5 rfl

/-- C4 counterexample: under the sliding-window strategy, a timestamp
recorded by an admitted `check_limit` call survives a re-registration of
the same source by `set_limit`, so the recorded-timestamp sequence does not
become empty as the claim states. -/
theorem c4_counterexample :
    ((checkLimit (setLimit (RateLimiter.init "sliding_window") "a" 5 60 none 0) "a" 1 1).map
        fun r => (r.1, lookupKey "a" (setLimit r.2 "a" 5 60 none 2).windows)) =
      some (true, some [(1 : ℚ)]) ∧
    some [(1 : ℚ)] ≠ some ([] : List ℚ) := by
  constructor
  · simp [checkLimit, setLimit, checkSlidingWindow, getWindowDefault, RateLimiter.init,
      lookupKey, setKey, pyOrInt, List.dropWhile]
  · simp

/-- C4 amended: `set_limit` (re)writes the config and re-initializes the
token-bucket state (to `tokens = limit`, capacity `burst or limit`) and the
fixed-window state (to count `0`, `window_start = now`) for the governor's
strategy, but never touches the recorded sliding-window timestamps, which
persist across re-registration. -/
theorem c4_set_limit_reinit :
    ∀ (rl : RateLimiter) (s : String) (limit window : ℤ) (burst : Option ℤ) (now : ℚ),
      (setLimit rl s limit window burst now).strategy = rl.strategy ∧
      lookupKey s (setLimit rl s limit window burst now).limits =
        some ⟨limit, window, pyOrInt burst limit⟩ ∧
      (rl.strategy = "token_bucket" →
        lookupKey s (setLimit rl s limit window burst now).buckets =
          some ⟨(limit : ℚ), now, pyOrInt burst limit⟩) ∧
      (rl.strategy = "fixed_window" →
        lookupKey s (setLimit rl s limit window burst now).fixedWindows =
          some ⟨0, now⟩) ∧
      (setLimit rl s limit window burst now).windows = rl.windows := by
  intro rl s limit window burst now
  unfold setLimit
  by_cases h1 : rl.strategy = "token_bucket"
  · simp [h1, lookupKey_setKey_self]
  · by_cases h2 : rl.strategy = "fixed_window"
    · simp [h1, h2, lookupKey_setKey_self]
    · simp [h1, h2, lookupKey_setKey_self]

/-- C5: The token-bucket admission algorithm of `_check_token_bucket`
agrees with the specification formula `specTokenBucketAdmit` whenever the
bucket's capacity is the configured burst (as `set_limit` establishes):
same admission decision, same resulting token count, `last_refill` set to
`now`, capacity preserved. -/
theorem c5_token_bucket_refines_spec (cfg : LimitConfig) (b : Bucket) (cost : ℤ) (now : ℚ)
    (hcap : b.capacity = cfg.burst) :
    (checkTokenBucket cfg b cost now).1 =
        (specTokenBucketAdmit (cfg.limit : ℚ) (cfg.window : ℚ) (cfg.burst : ℚ)
          b.tokens b.lastRefill (cost : ℚ) now).1 ∧
      (checkTokenBucket cfg b cost now).2.tokens =
        (specTokenBucketAdmit (cfg.limit : ℚ) (cfg.window : ℚ) (cfg.burst : ℚ)
          b.tokens b.lastRefill (cost : ℚ) now).2 ∧
      (checkTokenBucket cfg b cost now).2.lastRefill = now ∧
      (checkTokenBucket cfg b cost now).2.capacity = cfg.burst := by
  unfold checkTokenBucket specTokenBucketAdmit
  rw [hcap]
  dsimp only
  split_ifs <;> simp_all

/-- Witness for C5 at a concrete config and bucket. -/
theorem c5_witness :
    (checkTokenBucket ⟨5, 10, 7⟩ ⟨3, 0, 7⟩ 2 1).1 =
        (specTokenBucketAdmit ((5 : ℤ) : ℚ) ((10 : ℤ) : ℚ) ((7 : ℤ) : ℚ)
          3 0 ((2 : ℤ) : ℚ) 1).1 ∧
      (checkTokenBucket ⟨5, 10, 7⟩ ⟨3, 0, 7⟩ 2 1).2.tokens =
        (specTokenBucketAdmit ((5 : ℤ) : ℚ) ((10 : ℤ) : ℚ) ((7 : ℤ) : ℚ)
          3 0 ((2 : ℤ) : ℚ) 1).2 ∧
      (checkTokenBucket ⟨5, 10, 7⟩ ⟨3, 0, 7⟩ 2 1).2.lastRefill = 1 ∧
      (checkTokenBucket ⟨5, 10, 7⟩ ⟨3, 0, 7⟩ 2 1).2.capacity = 7 :=
  c5_token_bucket_refines_spec ⟨5, 10, 7⟩ ⟨3, 0, 7⟩ 2 1 rfl

/-- C6 counterexample: configure `limit = 1, window = 1, burst = 2` under
the token-bucket strategy. The bucket starts at `tokens = 1` with capacity
`2`; reaching full capacity from level `1` at rate `1` takes `1` time unit
(the spec-side formula), yet `get_reset_time` returns the current time `0`
because it compares the token level against `limit`, not capacity. -/
theorem c6_counterexample :
    (getResetTime (setLimit (RateLimiter.init "token_bucket") "a" 1 1 (some 2) 0) "a" 0).map
        Prod.fst = some (some 0) ∧
      specFullCapacityResetTime 1 1 2 1 0 = 1 ∧ (0 : ℚ) ≠ 1 := by
  refine ⟨?_, ?_, by norm_num⟩
  · simp [getResetTime, setLimit, RateLimiter.init, lookupKey, setKey, pyOrInt]
  · norm_num [specFullCapacityResetTime]

/-- C6 amended: under the token-bucket strategy `get_reset_time` returns
the current time as soon as the stored token level reaches `limit` (not
full capacity), and otherwise the time for the stored level — ignoring any
refill accrued since `last_refill` — to reach `limit` at rate
`limit / window`, i.e. `now + (limit - tokens) * window / limit`. -/
theorem c6_reset_time_targets_limit
    (rl : RateLimiter) (s : String) (cfg : LimitConfig) (b : Bucket) (now : ℚ)
    (hstrat : rl.strategy = "token_bucket")
    (hcfg : lookupKey s rl.limits = some cfg)
    (hb : lookupKey s rl.buckets = some b) :
    getResetTime rl s now =
      some (some (if (cfg.limit : ℚ) ≤ b.tokens then now
        else now + ((cfg.limit : ℚ) - b.tokens) * (cfg.window : ℚ) / (cfg.limit : ℚ)), rl) := by
  unfold getResetTime
  rw [hcfg]
  simp only [hstrat, if_true, hb, reduceIte]
  by_cases hfull : (cfg.limit : ℚ) ≤ b.tokens
  · simp [hfull]
  · simp [hfull, div_div_eq_mul_div]

/-- Witness for C6's amended statement at a concrete token-bucket state. -/
theorem c6_witness :
    getResetTime (setLimit (RateLimiter.init "token_bucket") "a" 1 1 (some 2) 0) "a" 5 =
      some (some (if ((1 : ℤ) : ℚ) ≤ (1 : ℚ) then (5 : ℚ)
        else 5 + (((1 : ℤ) : ℚ) - 1) * ((1 : ℤ) : ℚ) / ((1 : ℤ) : ℚ)),
        setLimit (RateLimiter.init "token_bucket") "a" 1 1 (some 2) 0) :=
  c6_reset_time_targets_limit (setLimit (RateLimiter.init "token_bucket") "a" 1 1 (some 2) 0)
    "a" ⟨1, 1, 2⟩ ⟨1, 0, 2⟩ 5
    (by simp [setLimit, RateLimiter.init])
    (by simp [setLimit, RateLimiter.init, lookupKey, setKey, pyOrInt])
    (by simp [setLimit, RateLimiter.init, lookupKey, setKey, pyOrInt])

/-- C7: Refill monotonicity. Under the token-bucket strategy, with a valid
configuration (`limit >= 0`, `window > 0`, bucket capacity = configured
burst) and no state change between the two reads, the quota
`get_remaining_quota` reports is nondecreasing in the wall-clock time and
never exceeds `burst`. -/
theorem c7_refill_monotonic
    (rl : RateLimiter) (s : String) (cfg : LimitConfig) (b : Bucket) (t1 t2 : ℚ)
    (hstrat : rl.strategy = "token_bucket")
    (hcfg : lookupKey s rl.limits = some cfg)
    (hb : lookupKey s rl.buckets = some b)
    (hcap : b.capacity = cfg.burst)
    (hlim : 0 ≤ cfg.limit) (hwin : 0 < cfg.window) (ht : t1 ≤ t2) :
    ∃ q1 q2 : ℤ,
      getRemainingQuota rl s t1 = some (some q1, rl) ∧
      getRemainingQuota rl s t2 = some (some q2, rl) ∧
      q1 ≤ q2 ∧ q1 ≤ cfg.burst ∧ q2 ≤ cfg.burst := by
  have hr : 0 ≤ (cfg.limit : ℚ) / (cfg.window : ℚ) :=
    div_nonneg (by exact_mod_cast hlim) (by exact_mod_cast hwin.le)
  refine ⟨pyInt (min (b.capacity : ℚ)
      (b.tokens + (t1 - b.lastRefill) * ((cfg.limit : ℚ) / (cfg.window : ℚ)))),
    pyInt (min (b.capacity : ℚ)
      (b.tokens + (t2 - b.lastRefill) * ((cfg.limit : ℚ) / (cfg.window : ℚ)))),
    ?_, ?_, ?_, ?_, ?_⟩
  · unfold getRemainingQuota
    rw [hcfg]
    simp [hstrat, hb]
  · unfold getRemainingQuota
    rw [hcfg]
    simp [hstrat, hb]
  · apply pyInt_mono
    have hmul : (t1 - b.lastRefill) * ((cfg.limit : ℚ) / (cfg.window : ℚ)) ≤
        (t2 - b.lastRefill) * ((cfg.limit : ℚ) / (cfg.window : ℚ)) :=
      mul_le_mul_of_nonneg_right (by linarith) hr
    exact min_le_min le_rfl (by linarith)
  · rw [← hcap]
    exact pyInt_le_intCast (min_le_left _ _)
  · rw [← hcap]
    exact pyInt_le_intCast (min_le_left _ _)

/-- Witness for C7 at a concrete token-bucket state and two times. -/
theorem c7_witness :
    ∃ q1 q2 : ℤ,
      getRemainingQuota (setLimit (RateLimiter.init "token_bucket") "a" 5 10 none 0) "a" 1 =
        some (some q1, setLimit (RateLimiter.init "token_bucket") "a" 5 10 none 0) ∧
      getRemainingQuota (setLimit (RateLimiter.init "token_bucket") "a" 5 10 none 0) "a" 3 =
        some (some q2, setLimit (RateLimiter.init "token_bucket") "a" 5 10 none 0) ∧
      q1 ≤ q2 ∧ q1 ≤ (5 : ℤ) ∧ q2 ≤ (5 : ℤ) :=
  c7_refill_monotonic (setLimit (RateLimiter.init "token_bucket") "a" 5 10 none 0)
    "a" ⟨5, 10, 5⟩ ⟨5, 0, 5⟩ 1 3
    (by simp [setLimit, RateLimiter.init])
    (by simp [setLimit, RateLimiter.init, lookupKey, setKey, pyOrInt])
    (by simp [setLimit, RateLimiter.init, lookupKey, setKey, pyOrInt])
    rfl (by norm_num) (by norm_num) (by norm_num)

/-- C8 counterexample: under the sliding-window strategy, calling
`get_remaining_quota` on a configured source that has no `windows` entry
yet inserts an empty deque into the `defaultdict`, changing the governor's
state: `windows` goes from `[]` to `[("a", [])]`. -/
theorem c8_counterexample :
    (getRemainingQuota (setLimit (RateLimiter.init "sliding_window") "a" 5 60 none 0) "a" 7).map
        (fun r => (r.1, r.2.windows)) = some (some 5, [("a", ([] : List ℚ))]) ∧
      (setLimit (RateLimiter.init "sliding_window") "a" 5 60 none 0).windows =
        ([] : List (String × List ℚ)) ∧
      [("a", ([] : List ℚ))] ≠ ([] : List (String × List ℚ)) := by
  refine ⟨?_, ?_, by simp⟩
  · simp [getRemainingQuota, setLimit, getWindowDefault, RateLimiter.init, lookupKey,
      setKey, pyOrInt, List.filter]
  · simp [setLimit, RateLimiter.init]

/-- C8 amended: `get_remaining_quota` never changes the strategy, the limit
configuration, the bucket states, the fixed-window states, or any recorded
timestamp; the only possible state change is the sliding-window branch
inserting an empty deque for the queried source into the `windows`
defaultdict when that source has no entry yet. -/
theorem c8_quota_frame (rl : RateLimiter) (s : String) (now : ℚ)
    (res : Option ℤ) (rl' : RateLimiter)
    (h : getRemainingQuota rl s now = some (res, rl')) :
    rl'.strategy = rl.strategy ∧ rl'.limits = rl.limits ∧ rl'.buckets = rl.buckets ∧
      rl'.fixedWindows = rl.fixedWindows ∧
      (rl'.windows = rl.windows ∨
        (lookupKey s rl.windows = none ∧ rl'.windows = setKey s [] rl.windows)) := by
  unfold getRemainingQuota at h
  cases hL : lookupKey s rl.limits with
  | none =>
    rw [hL] at h
    simp only [Option.some.injEq, Prod.mk.injEq] at h
    obtain ⟨-, h2⟩ := h
    subst h2
    exact ⟨rfl, rfl, rfl, rfl, Or.inl rfl⟩
  | some cfg =>
    rw [hL] at h
    dsimp only at h
    by_cases h1 : rl.strategy = "token_bucket"
    · rw [if_pos h1] at h
      cases hB : lookupKey s rl.buckets with
      | none => rw [hB] at h; exact absurd h (by simp)
      | some b =>
        rw [hB] at h
        simp only [Option.some.injEq, Prod.mk.injEq] at h
        obtain ⟨-, h2⟩ := h
        subst h2
        exact ⟨rfl, rfl, rfl, rfl, Or.inl rfl⟩
    · rw [if_neg h1] at h
      by_cases h2 : rl.strategy = "sliding_window"
      · rw [if_pos h2] at h
        unfold getWindowDefault at h
        cases hW : lookupKey s rl.windows with
        | some w =>
          rw [hW] at h
          simp only [Option.some.injEq, Prod.mk.injEq] at h
          obtain ⟨-, h3⟩ := h
          subst h3
          exact ⟨rfl, rfl, rfl, rfl, Or.inl rfl⟩
        | none =>
          rw [hW] at h
          simp only [Option.some.injEq, Prod.mk.injEq] at h
          obtain ⟨-, h3⟩ := h
          subst h3
          exact ⟨rfl, rfl, rfl, rfl, Or.inr ⟨rfl, rfl⟩⟩
      · rw [if_neg h2] at h
        by_cases h3 : rl.strategy = "fixed_window"
        · rw [if_pos h3] at h
          cases hF : lookupKey s rl.fixedWindows with
          | none => rw [hF] at h; exact absurd h (by simp)
          | some st =>
            rw [hF] at h
            dsimp only at h
            by_cases hE : (cfg.window : ℚ) ≤ now - st.windowStart
            · rw [if_pos hE] at h
              simp only [Option.some.injEq, Prod.mk.injEq] at h
              obtain ⟨-, h4⟩ := h
              subst h4
              exact ⟨rfl, rfl, rfl, rfl, Or.inl rfl⟩
            · rw [if_neg hE] at h
              simp only [Option.some.injEq, Prod.mk.injEq] at h
              obtain ⟨-, h4⟩ := h
              subst h4
              exact ⟨rfl, rfl, rfl, rfl, Or.inl rfl⟩
        · rw [if_neg h3] at h
          simp only [Option.some.injEq, Prod.mk.injEq] at h
          obtain ⟨-, h4⟩ := h
          subst h4
          exact ⟨rfl, rfl, rfl, rfl, Or.inl rfl⟩

/-- Witness for C8's amended statement: a token-bucket quota read leaves
the state fully unchanged. -/
theorem c8_witness :
    (setLimit (RateLimiter.init "token_bucket") "a" 5 10 none 0).strategy =
        (setLimit (RateLimiter.init "token_bucket") "a" 5 10 none 0).strategy ∧
      (setLimit (RateLimiter.init "token_bucket") "a" 5 10 none 0).limits =
        (setLimit (RateLimiter.init "token_bucket") "a" 5 10 none 0).limits ∧
      (setLimit (RateLimiter.init "token_bucket") "a" 5 10 none 0).buckets =
        (setLimit (RateLimiter.init "token_bucket") "a" 5 10 none 0).buckets ∧
      (setLimit (RateLimiter.init "token_bucket") "a" 5 10 none 0).fixedWindows =
        (setLimit (RateLimiter.init "token_bucket") "a" 5 10 none 0).fixedWindows ∧
      ((setLimit (RateLimiter.init "token_bucket") "a" 5 10 none 0).windows =
          (setLimit (RateLimiter.init "token_bucket") "a" 5 10 none 0).windows ∨
        (lookupKey "a" (setLimit (RateLimiter.init "token_bucket") "a" 5 10 none 0).windows =
            none ∧
          (setLimit (RateLimiter.init "token_bucket") "a" 5 10 none 0).windows =
            setKey "a" []
              (setLimit (RateLimiter.init "token_bucket") "a" 5 10 none 0).windows)) :=
  c8_quota_frame (setLimit (RateLimiter.init "token_bucket") "a" 5 10 none 0) "a" 2
    (some 5) (setLimit (RateLimiter.init "token_bucket") "a" 5 10 none 0)
    (by
      simp [getRemainingQuota, setLimit, RateLimiter.init, lookupKey, setKey, pyOrInt, pyInt]
      norm_num [min_def])

/-- C9 counterexample: `max_wait = 0` is falsy in Python, so the deadline
test `if max_wait and ...` is skipped entirely. With a source whose limit
(`1`) can never admit a cost of `2`, the loop is still running after two
full iterations whose deadline samples (`2` and `4`) are far past the
elapsed `max_wait` of `0`; the call never returns `false` as the claim
requires for every `max_wait >= 0`. -/
theorem c9_counterexample :
    (waitIfNeeded "a" 2 (some 0) 0
        (setLimit (RateLimiter.init "fixed_window") "a" 1 10 none 0)
        [(1, 2), (3, 4)]).isReturned = false ∧ (0 : ℚ) ≤ 2 - 0 := by
  constructor
  · simp [waitIfNeeded, checkLimit, setLimit, checkFixedWindow, RateLimiter.init,
      lookupKey, setKey, pyOrInt, pyTruthy, WaitOutcome.isReturned]
    norm_num
  · norm_num

/-- C9 amended: with a strictly positive `max_wait`, `wait_if_needed`
returns `true` at once when the first `check_limit` attempt is admitted
(consuming no further iterations, hence no sleeping), returns `false` at the
first rejected attempt whose deadline sample shows `max_wait` elapsed, and
can never still be looping once an iteration's deadline sample passes
`start + max_wait`. A `max_wait` of exactly `0` is falsy in Python and
disables the deadline entirely, so it is excluded. -/
theorem c9_bounded_wait :
    (∀ (rl rl' : RateLimiter) (s : String) (cost : ℤ) (mw : Option ℚ)
        (start tCheck tAfter : ℚ) (rest : List (ℚ × ℚ)),
        checkLimit rl s cost tCheck = some (true, rl') →
        waitIfNeeded s cost mw start rl ((tCheck, tAfter) :: rest) =
          WaitOutcome.returned true rl') ∧
    (∀ (rl rl' : RateLimiter) (s : String) (cost : ℤ) (mw : ℚ)
        (start tCheck tAfter : ℚ) (rest : List (ℚ × ℚ)),
        0 < mw →
        checkLimit rl s cost tCheck = some (false, rl') →
        start + mw ≤ tAfter →
        waitIfNeeded s cost (some mw) start rl ((tCheck, tAfter) :: rest) =
          WaitOutcome.returned false rl') ∧
    (∀ (rl rlEnd : RateLimiter) (s : String) (cost : ℤ) (mw : ℚ) (start : ℚ)
        (trace : List (ℚ × ℚ)),
        0 < mw → (∃ p ∈ trace, start + mw ≤ p.2) →
        waitIfNeeded s cost (some mw) start rl trace ≠ WaitOutcome.running rlEnd) := by
  refine ⟨?_, ?_, ?_⟩
  · intro rl rl' s cost mw start tCheck tAfter rest h
    simp [waitIfNeeded, h]
  · intro rl rl' s cost mw start tCheck tAfter rest h0 hfalse hle
    have hcond : pyTruthy (some mw) = true ∧ (some mw).getD 0 ≤ tAfter - start := by
      refine ⟨?_, ?_⟩
      · simp only [pyTruthy, decide_eq_true_eq]
        exact ne_of_gt h0
      · show mw ≤ tAfter - start
        linarith
    simp only [waitIfNeeded, hfalse]
    rw [if_pos hcond]
  · intro rl rlEnd s cost mw start trace hmw hex
    revert hex
    induction trace generalizing rl with
    | nil => intro hex; simp at hex
    | cons p rest ih =>
      intro hex
      obtain ⟨tc, ta⟩ := p
      simp only [waitIfNeeded]
      cases hc : checkLimit rl s cost tc with
      | none => simp
      | some r =>
        obtain ⟨ok, rl'⟩ := r
        cases ok with
        | true => simp
        | false =>
          dsimp only
          by_cases hd : pyTruthy (some mw) = true ∧ (some mw).getD 0 ≤ ta - start
          · rw [if_pos hd]
            simp
          · rw [if_neg hd]
            apply ih rl'
            rcases hex with ⟨q, hq, hle⟩
            rcases List.mem_cons.1 hq with hhead | hq'
            · exfalso
              apply hd
              refine ⟨?_, ?_⟩
              · simp only [pyTruthy, decide_eq_true_eq]
                exact ne_of_gt hmw
              · show mw ≤ ta - start
                have : start + mw ≤ ta := by rw [hhead] at hle; exact hle
                linarith
            · exact ⟨q, hq', hle⟩

/-- C2: Atomicity of rejection. For a configured source with a nonnegative
limit, a `check_limit` call that returns `false` leaves the value reported
by `get_remaining_quota` at that same instant unchanged, under every
strategy. -/
theorem c2_rejection_atomic
    (rl rl' : RateLimiter) (s : String) (cfg : LimitConfig) (cost : ℤ) (now : ℚ)
    (hcfg : lookupKey s rl.limits = some cfg) (hlim : 0 ≤ cfg.limit)
    (hrej : checkLimit rl s cost now = some (false, rl')) :
    quotaValue rl s now = quotaValue rl' s now := by
  unfold checkLimit at hrej
  rw [hcfg] at hrej
  dsimp only at hrej
  by_cases h1 : rl.strategy = "token_bucket"
  · rw [if_pos h1] at hrej
    cases hB : lookupKey s rl.buckets with
    | none => rw [hB] at hrej; exact absurd hrej (by simp)
    | some b =>
      rw [hB] at hrej
      dsimp only at hrej
      simp only [Option.some.injEq, Prod.mk.injEq] at hrej
      obtain ⟨hfalse, hrl'⟩ := hrej
      by_cases hc : (cost : ℚ) ≤ min (b.capacity : ℚ)
          (b.tokens + (now - b.lastRefill) * ((cfg.limit : ℚ) / (cfg.window : ℚ)))
      · rw [show checkTokenBucket cfg b cost now = (true,
          ⟨min (b.capacity : ℚ)
            (b.tokens + (now - b.lastRefill) * ((cfg.limit : ℚ) / (cfg.window : ℚ))) -
            (cost : ℚ), now, b.capacity⟩) from by simp [checkTokenBucket, hc]] at hfalse
        exact absurd hfalse (by simp)
      · rw [show checkTokenBucket cfg b cost now = (false,
          ⟨min (b.capacity : ℚ)
            (b.tokens + (now - b.lastRefill) * ((cfg.limit : ℚ) / (cfg.window : ℚ))),
            now, b.capacity⟩) from by simp [checkTokenBucket, hc]] at hrl'
        subst hrl'
        unfold quotaValue getRemainingQuota
        dsimp only
        rw [hcfg]
        dsimp only
        rw [if_pos h1, if_pos h1, hB, lookupKey_setKey_self]
        dsimp only
        rw [sub_self, zero_mul, add_zero, min_eq_right (min_le_left _ _)]
        rfl
  · rw [if_neg h1] at hrej
    by_cases h2 : rl.strategy = "sliding_window"
    · rw [if_pos h2] at hrej
      unfold getWindowDefault at hrej
      cases hW : lookupKey s rl.windows with
      | some w =>
        rw [hW] at hrej
        dsimp only at hrej
        simp only [Option.some.injEq, Prod.mk.injEq] at hrej
        obtain ⟨hfalse, hrl'⟩ := hrej
        by_cases hc : (((w.dropWhile fun x => decide (x < now - (cfg.window : ℚ))).length : ℤ)
            + cost ≤ cfg.limit)
        · rw [show checkSlidingWindow cfg w cost now = (true,
            (w.dropWhile fun x => decide (x < now - (cfg.window : ℚ))) ++
              List.replicate cost.toNat now) from by simp [checkSlidingWindow, hc]] at hfalse
          exact absurd hfalse (by simp)
        · rw [show checkSlidingWindow cfg w cost now = (false,
            w.dropWhile fun x => decide (x < now - (cfg.window : ℚ))) from by
              simp [checkSlidingWindow, hc]] at hrl'
          subst hrl'
          unfold quotaValue getRemainingQuota
          dsimp only
          rw [hcfg]
          dsimp only
          rw [if_neg h1, if_neg h1, if_pos h2, if_pos h2]
          unfold getWindowDefault
          dsimp only
          rw [hW, lookupKey_setKey_self]
          dsimp only
          rw [filter_dropWhile_ge]
          rfl
      | none =>
        rw [hW] at hrej
        dsimp only at hrej
        simp only [Option.some.injEq, Prod.mk.injEq] at hrej
        obtain ⟨hfalse, hrl'⟩ := hrej
        by_cases hc : cost ≤ cfg.limit
        · rw [show checkSlidingWindow cfg [] cost now =
            (true, List.replicate cost.toNat now) from by
              simp [checkSlidingWindow, hc, List.dropWhile]] at hfalse
          exact absurd hfalse (by simp)
        · rw [show checkSlidingWindow cfg [] cost now = (false, []) from by
            simp [checkSlidingWindow, hc, List.dropWhile]] at hrl'
          subst hrl'
          unfold quotaValue getRemainingQuota
          dsimp only
          rw [hcfg]
          dsimp only
          rw [if_neg h1, if_neg h1, if_pos h2, if_pos h2]
          unfold getWindowDefault
          dsimp only
          rw [hW, lookupKey_setKey_self]
          rfl
    · rw [if_neg h2] at hrej
      by_cases h3 : rl.strategy = "fixed_window"
      · rw [if_pos h3] at hrej
        cases hF : lookupKey s rl.fixedWindows with
        | none => rw [hF] at hrej; exact absurd hrej (by simp)
        | some st =>
          rw [hF] at hrej
          dsimp only at hrej
          simp only [Option.some.injEq, Prod.mk.injEq] at hrej
          obtain ⟨hfalse, hrl'⟩ := hrej
          by_cases hE : (cfg.window : ℚ) ≤ now - st.windowStart
          · by_cases hc : cost ≤ cfg.limit
            · rw [show checkFixedWindow cfg st cost now = (true, ⟨cost, now⟩) from by
                simp [checkFixedWindow, hE, hc]] at hfalse
              exact absurd hfalse (by simp)
            · rw [show checkFixedWindow cfg st cost now = (false, ⟨0, now⟩) from by
                simp [checkFixedWindow, hE, hc]] at hrl'
              subst hrl'
              unfold quotaValue getRemainingQuota
              dsimp only
              rw [hcfg]
              dsimp only
              rw [if_neg h1, if_neg h1, if_neg h2, if_neg h2, if_pos h3, if_pos h3, hF,
                lookupKey_setKey_self]
              dsimp only
              rw [if_pos hE, sub_self]
              by_cases hw0 : (cfg.window : ℚ) ≤ 0
              · rw [if_pos hw0]
                rfl
              · rw [if_neg hw0, sub_zero, max_eq_right hlim]
                rfl
          · by_cases hc : st.count + cost ≤ cfg.limit
            · rw [show checkFixedWindow cfg st cost now =
                (true, ⟨st.count + cost, st.windowStart⟩) from by
                  simp [checkFixedWindow, hE, hc]] at hfalse
              exact absurd hfalse (by simp)
            · rw [show checkFixedWindow cfg st cost now = (false, st) from by
                simp [checkFixedWindow, hE, hc]] at hrl'
              subst hrl'
              unfold quotaValue getRemainingQuota
              dsimp only
              rw [hcfg]
              dsimp only
              rw [if_neg h1, if_neg h1, if_neg h2, if_neg h2, if_pos h3, if_pos h3, hF,
                lookupKey_setKey_self]
              dsimp only
              rw [if_neg hE, if_neg hE]
              rfl
      · rw [if_neg h3] at hrej
        exact absurd hrej (by simp)

/-- Witness for C2: a rejected fixed-window check, whose rejection leaves
the state (and hence the reported quota) untouched. -/
theorem c2_witness :
    quotaValue (setLimit (RateLimiter.init "fixed_window") "a" 1 10 none 0) "a" 0 =
      quotaValue (setLimit (RateLimiter.init "fixed_window") "a" 1 10 none 0) "a" 0 :=
  c2_rejection_atomic (setLimit (RateLimiter.init "fixed_window") "a" 1 10 none 0)
    (setLimit (RateLimiter.init "fixed_window") "a" 1 10 none 0) "a" ⟨1, 10, 1⟩ 2 0
    (by simp [setLimit, RateLimiter.init, lookupKey, setKey, pyOrInt])
    (by norm_num)
    (by
      simp [checkLimit, setLimit, checkFixedWindow, RateLimiter.init, lookupKey, setKey,
        pyOrInt])

/-- C10: a governor constructed with a strategy other than the three known
ones admits every request, configured source or not, without touching any
state. -/
theorem c10_unknown_strategy_open (rl : RateLimiter) (s : String) (cost : ℤ) (now : ℚ)
    (h1 : rl.strategy ≠ "token_bucket") (h2 : rl.strategy ≠ "sliding_window")
    (h3 : rl.strategy ≠ "fixed_window") :
    checkLimit rl s cost now = some (true, rl) := by
  unfold checkLimit
  cases lookupKey s rl.limits <;> simp [h1, h2, h3]

/-- Witness for C10: an unknown strategy `"leaky"` with a configured source. -/
theorem c10_witness :
    checkLimit (setLimit (RateLimiter.init "leaky") "a" 5 10 none 0) "a" 1 0 =
      some (true, setLimit (RateLimiter.init "leaky") "a" 5 10 none 0) :=
  c10_unknown_strategy_open (setLimit (RateLimiter.init "leaky") "a" 5 10 none 0) "a" 1 0
    (by simp [setLimit, RateLimiter.init])
    (by simp [setLimit, RateLimiter.init])
    (by simp [setLimit, RateLimiter.init])

end WebAgents
